import Mathlib

set_option maxHeartbeats 1000000
set_option autoImplicit false

/-!
Verification of the rat pager core (src/lib/pager.go and the shell-command
wrapper).  The cursor/scroll state machine, the key-event dispatch, the
listener registration and the process-wrapper construction and teardown are
embedded as executable Lean functions, translated from the Go source.
-/

/-- State touched by the cursor/scroll machinery of cmdPager: the number of
buffer lines (Buffer.NumLines), the content-box height
(p.contentBox.Height()), the cursor line (p.cursorY) and the scroll offset
(p.scrollOffsetY). -/
structure PagerState where
  numLines : Int
  height : Int
  cursorY : Int
  scrollOffsetY : Int
deriving DecidableEq, Repr

/-- The clamp performed by the first if-chain of cmdPager.MoveCursorToY,
before the cross-correction: floor at 0 first, then ceiling at numLines-1. -/
def cursorClamp (cursorY numLines : Int) : Int :=
  if cursorY < 0 then 0
  else if cursorY ≥ numLines then numLines - 1
  else cursorY

/-- The clamp performed by the first if-chain of cmdPager.ScrollToY, before
the cross-correction. -/
def scrollClamp (scrollY numLines height : Int) : Int :=
  if scrollY < 0 then 0
  else if scrollY ≥ numLines - height then
    if numLines > height then numLines - height else 0
  else scrollY

mutual

/-- Fueled embedding of cmdPager.MoveCursorToY.  The Go method clamps the
requested cursor line and then, when the cursor left the viewport, calls
ScrollToY (which may call back). Fuel bounds the mutual recursion; a result
of none means the fuel ran out, i.e. the recursion did not terminate within
the given depth. -/
def MoveCursorToY : Nat → Int → PagerState → Option PagerState
  | 0, _, _ => none
  | fuel + 1, cursorY, s =>
    let s1 : PagerState := { s with cursorY := cursorClamp cursorY s.numLines }
    if s1.cursorY < s1.scrollOffsetY then
      ScrollToY fuel s1.cursorY s1
    else if s1.cursorY > s1.scrollOffsetY + s1.height - 1 then
      ScrollToY fuel (s1.cursorY - (s1.height - 1)) s1
    else
      some s1
termination_by structural fuel => fuel

/-- Fueled embedding of cmdPager.ScrollToY, the mutual partner of
MoveCursorToY. -/
def ScrollToY : Nat → Int → PagerState → Option PagerState
  | 0, _, _ => none
  | fuel + 1, scrollY, s =>
    let s1 : PagerState :=
      { s with scrollOffsetY := scrollClamp scrollY s.numLines s.height }
    if s1.cursorY < s1.scrollOffsetY then
      MoveCursorToY fuel s1.scrollOffsetY s1
    else if s1.cursorY > s1.scrollOffsetY + s1.height - 1 then
      MoveCursorToY fuel (s1.scrollOffsetY + s1.height - 1) s1
    else
      some s1
termination_by structural fuel => fuel

end

/-- The public cursor/scroll operations of the Pager interface, as they are
routed to MoveCursorToY and ScrollToY by cmdPager. -/
inductive PagerOp where
  | moveCursorToY (cursorY : Int)
  | moveCursorY (delta : Int)
  | scrollToY (scrollY : Int)
  | scrollY (delta : Int)
  | pageUp
  | pageDown
  | cursorFirstLine
  | cursorLastLine
deriving DecidableEq, Repr

/-- Run one pager operation, exactly as cmdPager forwards it:
MoveCursorY adds the delta to cursorY, ScrollY adds it to scrollOffsetY,
PageUp and PageDown scroll by the content height, CursorFirstLine requests
line 0 and CursorLastLine requests line NumLines. -/
def runOp (fuel : Nat) : PagerOp → PagerState → Option PagerState
  | PagerOp.moveCursorToY y, s => MoveCursorToY fuel y s
  | PagerOp.moveCursorY d, s => MoveCursorToY fuel (s.cursorY + d) s
  | PagerOp.scrollToY y, s => ScrollToY fuel y s
  | PagerOp.scrollY d, s => ScrollToY fuel (s.scrollOffsetY + d) s
  | PagerOp.pageUp, s => ScrollToY fuel (s.scrollOffsetY - s.height) s
  | PagerOp.pageDown, s => ScrollToY fuel (s.scrollOffsetY + s.height) s
  | PagerOp.cursorFirstLine, s => MoveCursorToY fuel 0 s
  | PagerOp.cursorLastLine, s => MoveCursorToY fuel s.numLines s

/-- Run a sequence of pager operations, each with the given fuel. -/
def runOps (fuel : Nat) : List PagerOp → PagerState → Option PagerState
  | [], s => some s
  | op :: ops, s => (runOp fuel op s).bind (runOps fuel ops)

/-- The documented state invariants: 0 ≤ cursorLine < totalLines (or
cursorLine = 0 when totalLines = 0) and 0 ≤ scrollOffset ≤
max(0, totalLines - contentHeight). -/
def StateInv (s : PagerState) : Prop :=
  0 ≤ s.numLines ∧
  ((s.numLines = 0 ∧ s.cursorY = 0) ∨ (0 ≤ s.cursorY ∧ s.cursorY < s.numLines)) ∧
  0 ≤ s.scrollOffsetY ∧ s.scrollOffsetY ≤ max 0 (s.numLines - s.height)

instance (s : PagerState) : Decidable (StateInv s) := by
  unfold StateInv; infer_instance

/-- The auto-follow invariant: the cursor sits inside the viewport,
scrollOffset ≤ cursorLine ≤ scrollOffset + contentHeight - 1. -/
def AutoFollow (s : PagerState) : Prop :=
  s.scrollOffsetY ≤ s.cursorY ∧ s.cursorY ≤ s.scrollOffsetY + s.height - 1

instance (s : PagerState) : Decidable (AutoFollow s) := by
  unfold AutoFollow; infer_instance

/-- The cursor correction as a pure function of the requested value and the
current state, applied once: clamp the cursor, then slide the viewport when
the cursor left it. -/
def moveCursorPure (cursorY : Int) (s : PagerState) : PagerState :=
  let c := cursorClamp cursorY s.numLines
  let o :=
    if c < s.scrollOffsetY then scrollClamp c s.numLines s.height
    else if c > s.scrollOffsetY + s.height - 1 then
      scrollClamp (c - (s.height - 1)) s.numLines s.height
    else s.scrollOffsetY
  { s with cursorY := c, scrollOffsetY := o }

/-- The scroll correction as a pure function of the requested value and the
current state, applied once: clamp the offset, then snap the cursor to the
nearer viewport edge when it fell outside. -/
def scrollPure (scrollY : Int) (s : PagerState) : PagerState :=
  let o := scrollClamp scrollY s.numLines s.height
  let c :=
    if s.cursorY < o then o
    else if s.cursorY > o + s.height - 1 then o + s.height - 1
    else s.cursorY
  { s with cursorY := c, scrollOffsetY := o }

section SanityChecks

example : runOp 2 PagerOp.pageDown ⟨100, 10, 0, 0⟩ = some ⟨100, 10, 10, 10⟩ := by decide

example :
    runOps 2 [PagerOp.pageDown, PagerOp.moveCursorY 1, PagerOp.moveCursorY 1,
      PagerOp.moveCursorY 1, PagerOp.moveCursorY 1, PagerOp.moveCursorY 1]
      ⟨100, 10, 0, 0⟩ = some ⟨100, 10, 15, 10⟩ := by decide

example :
    runOps 2 [PagerOp.moveCursorY 1] ⟨100, 10, 19, 10⟩ =
      some ⟨100, 10, 20, 11⟩ := by decide

example : MoveCursorToY 2 200 ⟨100, 10, 0, 0⟩ = some ⟨100, 10, 99, 90⟩ := by decide

example : MoveCursorToY 6 0 ⟨0, 1, 0, 0⟩ = none := by decide

end SanityChecks

lemma cursorClamp_bounds (c N : Int) (hN : 1 ≤ N) :
    0 ≤ cursorClamp c N ∧ cursorClamp c N < N := by
  unfold cursorClamp; split_ifs <;> omega

lemma cursorClamp_fix (t N : Int) (h0 : 0 ≤ t) (hN : t < N) : cursorClamp t N = t := by
  unfold cursorClamp; split_ifs <;> omega

lemma scrollClamp_bounds (y N h : Int) (hh : 1 ≤ h) (hN : 0 ≤ N) :
    0 ≤ scrollClamp y N h ∧ scrollClamp y N h ≤ max 0 (N - h) := by
  unfold scrollClamp; split_ifs <;> omega

lemma scrollClamp_follow (t N h : Int) (hh : 1 ≤ h) (ht : 0 ≤ t) (htN : t < N) :
    scrollClamp t N h ≤ t ∧ t ≤ scrollClamp t N h + h - 1 := by
  unfold scrollClamp; split_ifs <;> omega

lemma moveCursorToY_step_done (fuel : Nat) (c : Int) (s : PagerState)
    (h1 : s.scrollOffsetY ≤ cursorClamp c s.numLines)
    (h2 : cursorClamp c s.numLines ≤ s.scrollOffsetY + s.height - 1) :
    MoveCursorToY (fuel + 1) c s = some { s with cursorY := cursorClamp c s.numLines } := by
  simp only [MoveCursorToY]
  rw [if_neg (by omega), if_neg (by omega)]

lemma scrollToY_step_done (fuel : Nat) (y : Int) (s : PagerState)
    (h1 : scrollClamp y s.numLines s.height ≤ s.cursorY)
    (h2 : s.cursorY ≤ scrollClamp y s.numLines s.height + s.height - 1) :
    ScrollToY (fuel + 1) y s = some { s with scrollOffsetY := scrollClamp y s.numLines s.height } := by
  simp only [ScrollToY]
  rw [if_neg (by omega), if_neg (by omega)]

lemma moveCursorToY_step_up (fuel : Nat) (c : Int) (s : PagerState)
    (h1 : cursorClamp c s.numLines < s.scrollOffsetY) :
    MoveCursorToY (fuel + 1) c s =
      ScrollToY fuel (cursorClamp c s.numLines) { s with cursorY := cursorClamp c s.numLines } := by
  simp only [MoveCursorToY]
  rw [if_pos h1]

lemma moveCursorToY_step_down (fuel : Nat) (c : Int) (s : PagerState)
    (h1 : ¬ cursorClamp c s.numLines < s.scrollOffsetY)
    (h2 : cursorClamp c s.numLines > s.scrollOffsetY + s.height - 1) :
    MoveCursorToY (fuel + 1) c s =
      ScrollToY fuel (cursorClamp c s.numLines - (s.height - 1))
        { s with cursorY := cursorClamp c s.numLines } := by
  simp only [MoveCursorToY]
  rw [if_neg h1, if_pos h2]

lemma scrollToY_step_up (fuel : Nat) (y : Int) (s : PagerState)
    (h1 : s.cursorY < scrollClamp y s.numLines s.height) :
    ScrollToY (fuel + 1) y s =
      MoveCursorToY fuel (scrollClamp y s.numLines s.height)
        { s with scrollOffsetY := scrollClamp y s.numLines s.height } := by
  simp only [ScrollToY]
  rw [if_pos h1]

lemma scrollToY_step_down (fuel : Nat) (y : Int) (s : PagerState)
    (h1 : ¬ s.cursorY < scrollClamp y s.numLines s.height)
    (h2 : s.cursorY > scrollClamp y s.numLines s.height + s.height - 1) :
    ScrollToY (fuel + 1) y s =
      MoveCursorToY fuel (scrollClamp y s.numLines s.height + s.height - 1)
        { s with scrollOffsetY := scrollClamp y s.numLines s.height } := by
  simp only [ScrollToY]
  rw [if_neg h1, if_pos h2]

lemma empty_buffer_stuck (h : Int) (hh : 1 ≤ h) : ∀ fuel : Nat,
    (∀ c : Int, 0 ≤ c → MoveCursorToY fuel c ⟨0, h, -1, 0⟩ = none) ∧
    (∀ y : Int, ScrollToY fuel y ⟨0, h, -1, 0⟩ = none) := by
  intro fuel
  induction fuel with
  | zero => exact ⟨fun _ _ => rfl, fun _ => rfl⟩
  | succ fuel ih =>
    constructor
    · intro c hc
      have h1 : cursorClamp c (0 : Int) = -1 := by unfold cursorClamp; split_ifs <;> omega
      have hstep := moveCursorToY_step_up fuel c ⟨0, h, -1, 0⟩ (by simpa [h1] using by omega)
      simp only [h1] at hstep
      exact hstep.trans (ih.2 (-1))
    · intro y
      have h1 : scrollClamp y (0 : Int) h = 0 := by unfold scrollClamp; split_ifs <;> omega
      have hstep := scrollToY_step_up fuel y ⟨0, h, -1, 0⟩ (by simpa [h1] using by omega)
      simp only [h1] at hstep
      exact hstep.trans (ih.1 0 le_rfl)

lemma move_some_char (fuel : Nat) (c : Int) (s s' : PagerState)
    (hh : 1 ≤ s.height) (hInv : StateInv s)
    (hsome : MoveCursorToY fuel c s = some s') :
    s' = moveCursorPure c s ∧ StateInv s' ∧ AutoFollow s' := by
  obtain ⟨N, h, c0, o0⟩ := s
  obtain ⟨hN0, hcur, hsc0, hscMax⟩ := hInv
  simp only at hh hN0 hcur hsc0 hscMax
  match fuel with
  | 0 => simp [MoveCursorToY] at hsome
  | fuel + 1 =>
    by_cases hNz : N = 0
    · subst hNz
      have hc0 : c0 = 0 := by omega
      have ho0 : o0 = 0 := by omega
      subst hc0; subst ho0
      by_cases hcneg : c < 0
      · have hcc : cursorClamp c (0 : Int) = 0 := by unfold cursorClamp; split_ifs <;> omega
        rw [moveCursorToY_step_done fuel c ⟨0, h, 0, 0⟩ (by simp [hcc]) (by simp [hcc]; omega)]
          at hsome
        obtain rfl : s' = _ := Option.some.inj hsome.symm
        refine ⟨?_, ?_, ?_⟩
        · simp [moveCursorPure, hcc]
          try (split_ifs <;> omega)
        · simp [StateInv, hcc]
          try omega
        · simp [AutoFollow, hcc]
          try omega
      · exfalso
        have hcc : cursorClamp c (0 : Int) = -1 := by unfold cursorClamp; split_ifs <;> omega
        have hstep := moveCursorToY_step_up fuel c ⟨0, h, 0, 0⟩ (by simp [hcc])
        simp only [hcc] at hstep
        rw [hstep] at hsome
        rw [(empty_buffer_stuck h hh fuel).2 (-1)] at hsome
        exact Option.noConfusion hsome
    · have hN1 : 1 ≤ N := by omega
      have hcb := cursorClamp_bounds c N hN1
      by_cases hg1 : cursorClamp c N < o0
      · -- cursor above viewport: scroll up to it
        match fuel with
        | 0 =>
          rw [moveCursorToY_step_up 0 c ⟨N, h, c0, o0⟩ hg1] at hsome
          simp [ScrollToY] at hsome
        | fuel + 1 =>
          rw [moveCursorToY_step_up (fuel + 1) c ⟨N, h, c0, o0⟩ hg1] at hsome
          have hfollow := scrollClamp_follow (cursorClamp c N) N h hh hcb.1 hcb.2
          rw [scrollToY_step_done fuel (cursorClamp c N) _ (by simpa using hfollow.1)
            (by simpa using hfollow.2)] at hsome
          obtain rfl : s' = _ := Option.some.inj hsome.symm
          have hsb := scrollClamp_bounds (cursorClamp c N) N h
          refine ⟨?_, ?_, ?_⟩
          · simp [moveCursorPure]
            rw [if_pos hg1]
          · simp [StateInv]
            omega
          · simp [AutoFollow]
            omega
      · by_cases hg2 : cursorClamp c N > o0 + h - 1
        · -- cursor below viewport: scroll down so it sits on the last row
          match fuel with
          | 0 =>
            rw [moveCursorToY_step_down 0 c ⟨N, h, c0, o0⟩ hg1 hg2] at hsome
            simp [ScrollToY] at hsome
          | fuel + 1 =>
            rw [moveCursorToY_step_down (fuel + 1) c ⟨N, h, c0, o0⟩ hg1 hg2] at hsome
            have hval : scrollClamp (cursorClamp c N - (h - 1)) N h = cursorClamp c N - (h - 1) := by
              unfold scrollClamp; split_ifs <;> omega
            rw [scrollToY_step_done fuel (cursorClamp c N - (h - 1)) _
              (by simp [hval]; omega) (by simp [hval]; omega)] at hsome
            obtain rfl : s' = _ := Option.some.inj hsome.symm
            refine ⟨?_, ?_, ?_⟩
            · simp [moveCursorPure]
              rw [if_neg hg1, if_pos hg2]
            · simp [StateInv, hval]
              omega
            · simp [AutoFollow, hval]
              omega
        · -- no correction needed
          rw [moveCursorToY_step_done fuel c ⟨N, h, c0, o0⟩
            (by show o0 ≤ cursorClamp c N; omega) (by show cursorClamp c N ≤ o0 + h - 1; omega)]
            at hsome
          obtain rfl : s' = _ := Option.some.inj hsome.symm
          refine ⟨?_, ?_, ?_⟩
          · simp [moveCursorPure]
            rw [if_neg hg1, if_neg hg2]
          · simp [StateInv]
            omega
          · simp [AutoFollow]
            omega

lemma scroll_some_char (fuel : Nat) (y : Int) (s s' : PagerState)
    (hh : 1 ≤ s.height) (hInv : StateInv s)
    (hsome : ScrollToY fuel y s = some s') :
    s' = scrollPure y s ∧ StateInv s' ∧ AutoFollow s' := by
  obtain ⟨N, h, c0, o0⟩ := s
  obtain ⟨hN0, hcur, hsc0, hscMax⟩ := hInv
  simp only at hh hN0 hcur hsc0 hscMax
  match fuel with
  | 0 => simp [ScrollToY] at hsome
  | fuel + 1 =>
    have hsb := scrollClamp_bounds y N h
    by_cases hNz : N = 0
    · subst hNz
      have hc0 : c0 = 0 := by omega
      subst hc0
      have hcc : scrollClamp y (0 : Int) h = 0 := by unfold scrollClamp; split_ifs <;> omega
      rw [scrollToY_step_done fuel y ⟨0, h, 0, o0⟩ (by simp [hcc]) (by simp [hcc]; omega)]
        at hsome
      obtain rfl : s' = _ := Option.some.inj hsome.symm
      refine ⟨?_, ?_, ?_⟩
      · simp [scrollPure, hcc]
        try (split_ifs <;> omega)
      · simp [StateInv, hcc]
        try omega
      · simp [AutoFollow, hcc]
        try omega
    · have hN1 : 1 ≤ N := by omega
      by_cases hg1 : c0 < scrollClamp y N h
      · -- cursor fell above the new viewport: snap it to the top edge
        match fuel with
        | 0 =>
          rw [scrollToY_step_up 0 y ⟨N, h, c0, o0⟩ hg1] at hsome
          simp [MoveCursorToY] at hsome
        | fuel + 1 =>
          rw [scrollToY_step_up (fuel + 1) y ⟨N, h, c0, o0⟩ hg1] at hsome
          have hfix : cursorClamp (scrollClamp y N h) N = scrollClamp y N h := by
            apply cursorClamp_fix
            · omega
            · omega
          rw [moveCursorToY_step_done fuel (scrollClamp y N h) _
            (by show scrollClamp y N h ≤ cursorClamp (scrollClamp y N h) N; rw [hfix])
            (by show cursorClamp (scrollClamp y N h) N ≤ scrollClamp y N h + h - 1
                rw [hfix]; omega)]
            at hsome
          obtain rfl : s' = _ := Option.some.inj hsome.symm
          refine ⟨?_, ?_, ?_⟩
          · simp [scrollPure, hfix]
            rw [if_pos hg1]
          · simp [StateInv, hfix]
            omega
          · simp [AutoFollow, hfix]
            omega
      · by_cases hg2 : c0 > scrollClamp y N h + h - 1
        · -- cursor fell below the new viewport: snap it to the bottom edge
          match fuel with
          | 0 =>
            rw [scrollToY_step_down 0 y ⟨N, h, c0, o0⟩ hg1 hg2] at hsome
            simp [MoveCursorToY] at hsome
          | fuel + 1 =>
            rw [scrollToY_step_down (fuel + 1) y ⟨N, h, c0, o0⟩ hg1 hg2] at hsome
            have hcN : c0 < N := by omega
            have hfix : cursorClamp (scrollClamp y N h + h - 1) N = scrollClamp y N h + h - 1 := by
              apply cursorClamp_fix
              · omega
              · omega
            rw [moveCursorToY_step_done fuel (scrollClamp y N h + h - 1) _
              (by show scrollClamp y N h ≤ cursorClamp (scrollClamp y N h + h - 1) N
                  rw [hfix]; omega)
              (by show cursorClamp (scrollClamp y N h + h - 1) N ≤ scrollClamp y N h + h - 1
                  rw [hfix])]
              at hsome
            obtain rfl : s' = _ := Option.some.inj hsome.symm
            refine ⟨?_, ?_, ?_⟩
            · simp [scrollPure, hfix]
              rw [if_neg hg1, if_pos hg2]
            · simp [StateInv, hfix]
              omega
            · simp [AutoFollow, hfix]
              omega
        · -- cursor still visible: no correction
          rw [scrollToY_step_done fuel y ⟨N, h, c0, o0⟩
            (by show scrollClamp y N h ≤ c0; omega) (by show c0 ≤ scrollClamp y N h + h - 1; omega)]
            at hsome
          obtain rfl : s' = _ := Option.some.inj hsome.symm
          refine ⟨?_, ?_, ?_⟩
          · simp [scrollPure]
            rw [if_neg hg1, if_neg hg2]
          · simp [StateInv]
            omega
          · simp [AutoFollow]
            omega

lemma scrollToY_terminates (fuel : Nat) (y : Int) (s : PagerState)
    (hh : 1 ≤ s.height) (hInv : StateInv s) :
    ScrollToY (fuel + 2) y s = some (scrollPure y s) := by
  obtain ⟨N, h, c0, o0⟩ := s
  obtain ⟨hN0, hcur, hsc0, hscMax⟩ := hInv
  simp only at hh hN0 hcur hsc0 hscMax
  have hsb := scrollClamp_bounds y N h
  by_cases hNz : N = 0
  · subst hNz
    have hc0 : c0 = 0 := by omega
    subst hc0
    have hcc : scrollClamp y (0 : Int) h = 0 := by unfold scrollClamp; split_ifs <;> omega
    rw [scrollToY_step_done (fuel + 1) y ⟨0, h, 0, o0⟩ (by simp [hcc]) (by simp [hcc]; omega)]
    simp [scrollPure, hcc]
    try (split_ifs <;> omega)
  · have hN1 : 1 ≤ N := by omega
    by_cases hg1 : c0 < scrollClamp y N h
    · rw [scrollToY_step_up (fuel + 1) y ⟨N, h, c0, o0⟩ hg1]
      have hfix : cursorClamp (scrollClamp y N h) N = scrollClamp y N h := by
        apply cursorClamp_fix
        · omega
        · omega
      rw [moveCursorToY_step_done fuel (scrollClamp y N h) _
        (by show scrollClamp y N h ≤ cursorClamp (scrollClamp y N h) N; rw [hfix])
        (by show cursorClamp (scrollClamp y N h) N ≤ scrollClamp y N h + h - 1
            rw [hfix]; omega)]
      simp [scrollPure, hfix]
      rw [if_pos hg1]
    · by_cases hg2 : c0 > scrollClamp y N h + h - 1
      · rw [scrollToY_step_down (fuel + 1) y ⟨N, h, c0, o0⟩ hg1 hg2]
        have hcN : c0 < N := by omega
        have hfix : cursorClamp (scrollClamp y N h + h - 1) N = scrollClamp y N h + h - 1 := by
          apply cursorClamp_fix
          · omega
          · omega
        rw [moveCursorToY_step_done fuel (scrollClamp y N h + h - 1) _
          (by show scrollClamp y N h ≤ cursorClamp (scrollClamp y N h + h - 1) N
              rw [hfix]; omega)
          (by show cursorClamp (scrollClamp y N h + h - 1) N ≤ scrollClamp y N h + h - 1
              rw [hfix])]
        simp [scrollPure, hfix]
        rw [if_neg hg1, if_pos hg2]
      · rw [scrollToY_step_done (fuel + 1) y ⟨N, h, c0, o0⟩
          (by show scrollClamp y N h ≤ c0; omega) (by show c0 ≤ scrollClamp y N h + h - 1; omega)]
        simp [scrollPure]
        rw [if_neg hg1, if_neg hg2]

lemma scrollClamp_eq_clamp (y N h : Int) :
    scrollClamp y N h = max 0 (min y (max 0 (N - h))) := by
  unfold scrollClamp; split_ifs <;> omega

lemma moveCursorToY_empty_none (fuel : Nat) (c : Int) (hc : 0 ≤ c) (h : Int) (hh : 1 ≤ h) :
    MoveCursorToY fuel c ⟨0, h, 0, 0⟩ = none := by
  match fuel with
  | 0 => rfl
  | fuel + 1 =>
    have hcc : cursorClamp c (0 : Int) = -1 := by unfold cursorClamp; split_ifs <;> omega
    rw [moveCursorToY_step_up fuel c ⟨0, h, 0, 0⟩ (by simp [hcc])]
    simp only [hcc]
    exact (empty_buffer_stuck h hh fuel).2 (-1)

lemma move_some_inv (fuel : Nat) (c : Int) (s s' : PagerState)
    (hh : 1 ≤ s.height) (hInv : StateInv s)
    (hsome : MoveCursorToY fuel c s = some s') :
    StateInv s' ∧ AutoFollow s' ∧ s'.height = s.height := by
  obtain ⟨heq, hI, hA⟩ := move_some_char fuel c s s' hh hInv hsome
  exact ⟨hI, hA, by rw [heq]; simp [moveCursorPure]⟩

lemma scroll_some_inv (fuel : Nat) (y : Int) (s s' : PagerState)
    (hh : 1 ≤ s.height) (hInv : StateInv s)
    (hsome : ScrollToY fuel y s = some s') :
    StateInv s' ∧ AutoFollow s' ∧ s'.height = s.height := by
  obtain ⟨heq, hI, hA⟩ := scroll_some_char fuel y s s' hh hInv hsome
  exact ⟨hI, hA, by rw [heq]; simp [scrollPure]⟩

lemma runOp_some (fuel : Nat) (op : PagerOp) (s s' : PagerState)
    (hh : 1 ≤ s.height) (hInv : StateInv s)
    (hsome : runOp fuel op s = some s') :
    StateInv s' ∧ AutoFollow s' ∧ s'.height = s.height := by
  cases op with
  | moveCursorToY y => exact move_some_inv fuel y s s' hh hInv hsome
  | moveCursorY d => exact move_some_inv fuel (s.cursorY + d) s s' hh hInv hsome
  | scrollToY y => exact scroll_some_inv fuel y s s' hh hInv hsome
  | scrollY d => exact scroll_some_inv fuel (s.scrollOffsetY + d) s s' hh hInv hsome
  | pageUp => exact scroll_some_inv fuel (s.scrollOffsetY - s.height) s s' hh hInv hsome
  | pageDown => exact scroll_some_inv fuel (s.scrollOffsetY + s.height) s s' hh hInv hsome
  | cursorFirstLine => exact move_some_inv fuel 0 s s' hh hInv hsome
  | cursorLastLine => exact move_some_inv fuel s.numLines s s' hh hInv hsome

/-- C1: after any sequence of cursor, scroll or page operations started in a
state satisfying the documented invariants (content height at least 1), every
state the pager reaches again satisfies the state invariants and the
auto-follow invariant scrollOffset ≤ cursorLine ≤ scrollOffset + H - 1. -/
theorem runOps_preserves_invariants (ops : List PagerOp) (fuel : Nat) (s s' : PagerState)
    (hh : 1 ≤ s.height) (hInv : StateInv s) (hAF : AutoFollow s)
    (hrun : runOps fuel ops s = some s') :
    StateInv s' ∧ AutoFollow s' := by
  induction ops generalizing s with
  | nil =>
    obtain rfl : s = s' := Option.some.inj (by simpa [runOps] using hrun)
    exact ⟨hInv, hAF⟩
  | cons op ops ih =>
    simp only [runOps] at hrun
    cases hmid : runOp fuel op s with
    | none => rw [hmid] at hrun; exact Option.noConfusion hrun
    | some mid =>
      rw [hmid] at hrun
      simp only [Option.some_bind] at hrun
      obtain ⟨hI, hA, hhgt⟩ := runOp_some fuel op s mid hh hInv hmid
      exact ih mid (by rw [hhgt]; exact hh) hI hA hrun

theorem runOps_preserves_invariants_witness :
    StateInv ⟨100, 10, 10, 10⟩ ∧ AutoFollow ⟨100, 10, 10, 10⟩ :=
  runOps_preserves_invariants [PagerOp.pageDown] 2 ⟨100, 10, 0, 0⟩ ⟨100, 10, 10, 10⟩
    (by decide) (by decide) (by decide) (by decide)

/-- C3 (code bug): on an empty buffer (NumLines = 0) the clamp of
MoveCursorToY floors at 0 before it ceils at NumLines - 1, so a request of
line 0 sets cursorY to -1 and the mutual cross-correction between
MoveCursorToY and ScrollToY then recurses forever: no fuel suffices, the call
never returns, instead of yielding cursorLine = 0 as the claim states. -/
theorem moveCursorToY_empty_diverges :
    ∀ fuel : Nat, MoveCursorToY fuel 0 ⟨0, 1, 0, 0⟩ = none := fun fuel =>
  moveCursorToY_empty_none fuel 0 le_rfl 1 le_rfl

/-- C5 (code bug): CursorLastLine on an empty buffer requests line
NumLines = 0, and the mutual cursor/scroll correction then never terminates:
the call runs out of any amount of fuel. -/
theorem cursorLastLine_empty_diverges :
    ∀ fuel : Nat, runOp fuel PagerOp.cursorLastLine ⟨0, 1, 0, 0⟩ = none := by
  intro fuel
  show MoveCursorToY fuel (PagerState.numLines ⟨0, 1, 0, 0⟩) ⟨0, 1, 0, 0⟩ = none
  exact moveCursorToY_empty_none fuel 0 le_rfl 1 le_rfl

/-- C4: from any state satisfying the documented invariants with content
height at least 1, ScrollToY terminates (two units of fuel suffice) and
yields scrollOffset = clamp(requested, 0, max(0, totalLines - height)); in
particular the offset is forced to 0 whenever totalLines ≤ height. -/
theorem scrollToY_clamps (fuel : Nat) (y : Int) (s : PagerState)
    (hh : 1 ≤ s.height) (hInv : StateInv s) :
    ScrollToY (fuel + 2) y s = some (scrollPure y s) ∧
    (scrollPure y s).scrollOffsetY = max 0 (min y (max 0 (s.numLines - s.height))) ∧
    (s.numLines ≤ s.height → (scrollPure y s).scrollOffsetY = 0) := by
  refine ⟨scrollToY_terminates fuel y s hh hInv, ?_, ?_⟩
  · simp [scrollPure, scrollClamp_eq_clamp]
  · intro hle
    simp [scrollPure, scrollClamp_eq_clamp]
    omega

theorem scrollToY_clamps_witness :
    ScrollToY 2 55 ⟨100, 10, 0, 0⟩ = some (scrollPure 55 ⟨100, 10, 0, 0⟩) ∧
    (scrollPure 55 ⟨100, 10, 0, 0⟩).scrollOffsetY =
      max 0 (min 55 (max 0 ((100 : Int) - 10))) ∧
    ((100 : Int) ≤ 10 → (scrollPure 55 ⟨100, 10, 0, 0⟩).scrollOffsetY = 0) :=
  scrollToY_clamps 0 55 ⟨100, 10, 0, 0⟩ (by decide) (by decide)

/-- An annotation as the Pager sees it through the Buffer: a class label
(Annotation.Class) and a value (Annotation.Val). -/
structure Annotation where
  cls : String
  val : String
deriving DecidableEq, Repr

/-- Assignment m[k] = v on a Go map modelled as an association list: replace
the value when the key is present, append otherwise. -/
def mapInsert {K V : Type} [DecidableEq K] : List (K × V) → K → V → List (K × V)
  | [], k, v => [(k, v)]
  | (k0, v0) :: rest, k, v =>
    if k0 = k then (k, v) :: rest else (k0, v0) :: mapInsert rest k v

/-- Lookup v, ok := m[k] on a Go map modelled as an association list. -/
def mapLookup {K V : Type} [DecidableEq K] : List (K × V) → K → Option V
  | [], _ => none
  | (k0, v0) :: rest, k => if k0 = k then some v0 else mapLookup rest k

lemma mapLookup_mapInsert {K V : Type} [DecidableEq K]
    (m : List (K × V)) (k : K) (v : V) (k' : K) :
    mapLookup (mapInsert m k v) k' = if k = k' then some v else mapLookup m k' := by
  induction m with
  | nil => simp [mapInsert, mapLookup]
  | cons p rest ih =>
    obtain ⟨k0, v0⟩ := p
    simp only [mapInsert]
    by_cases h0 : k0 = k
    · subst h0
      simp only [if_pos rfl, mapLookup]
      split_ifs <;> rfl
    · simp only [if_neg h0, mapLookup, ih]
      split_ifs <;> first | rfl | (exfalso; apply h0; cc)

/-- The Context built at the top of cmdPager.HandleEvent: fold ctx[a.Class()] =
a.Val() over the annotations of the current line, in their reported order. -/
def buildCtx (annotations : List Annotation) : List (String × String) :=
  annotations.foldl (fun ctx a => mapInsert ctx a.cls a.val) []

/-- The scan inside cmdPager.HandleEvent: walk the annotations in order and
return the handler bound to the first annotation whose class has one. -/
def findAnnHandler {V : Type} (handlers : List (String × V)) :
    List Annotation → Option V
  | [] => none
  | a :: rest =>
    match mapLookup handlers a.cls with
    | some handler => some handler
    | none => findAnnHandler handlers rest

/-- Which handler a call to HandleEvent invoked: an annotation-conditioned
handler together with the Context it was given, a plain listener (invoked
with no arguments), or nothing. -/
inductive Invoked (W V : Type) where
  | ann (handler : V) (ctx : List (String × String))
  | plain (handler : W)

/-- The fall-through tail of cmdPager.HandleEvent: invoke the plain listener
for the key when one is registered and report whether anything fired. -/
def plainDispatch {K W V : Type} [DecidableEq K]
    (eventListeners : List (K × W)) (ke : K) : Option (Invoked W V) × Bool :=
  match mapLookup eventListeners ke with
  | some handler => (some (Invoked.plain handler), true)
  | none => (none, false)

/-- Embedding of cmdPager.HandleEvent: build the Context from the current
line's annotations, try the annotation-conditioned listeners for the key
(first matching annotation wins, at most one handler runs), then fall back
to the plain listener; return what was invoked and whether anything fired. -/
def HandleEvent {K W V : Type} [DecidableEq K] (eventListeners : List (K × W))
    (annotationEventListeners : List (K × List (String × V))) (ke : K)
    (annotations : List Annotation) : Option (Invoked W V) × Bool :=
  let ctx := buildCtx annotations
  match mapLookup annotationEventListeners ke with
  | some handlers =>
    if 0 < annotations.length then
      match findAnnHandler handlers annotations with
      | some handler => (some (Invoked.ann handler ctx), true)
      | none => plainDispatch eventListeners ke
    else plainDispatch eventListeners ke
  | none => plainDispatch eventListeners ke

/-- Dispatch as the specification words it: if any annotation-conditioned
listener is registered for the key, scan the line's annotations in their
reported order and invoke the action bound to the first class that has a
handler for the key, stopping there; if no annotation-conditioned match
fired and a plain listener is registered, invoke it; return whether anything
fired.  The invoked action receives the Context built from all annotations
on the line. -/
def dispatchSpec {K W V : Type} [DecidableEq K] (eventListeners : List (K × W))
    (annotationEventListeners : List (K × List (String × V))) (ke : K)
    (annotations : List Annotation) : Option (Invoked W V) × Bool :=
  match mapLookup annotationEventListeners ke with
  | some handlers =>
    match annotations.find? (fun a => (mapLookup handlers a.cls).isSome) with
    | some a =>
      match mapLookup handlers a.cls with
      | some handler => (some (Invoked.ann handler (buildCtx annotations)), true)
      | none => plainDispatch eventListeners ke
    | none => plainDispatch eventListeners ke
  | none => plainDispatch eventListeners ke

/-- Context lookup as the specification words it: the value of the last
annotation of the given class on the line, since later annotations of the
same class overwrite earlier ones during the merge. -/
def lastAnnVal : List Annotation → String → Option String
  | [], _ => none
  | a :: rest, k =>
    match lastAnnVal rest k with
    | some v => some v
    | none => if a.cls = k then some a.val else none

lemma findAnnHandler_eq_find {V : Type} (handlers : List (String × V))
    (annotations : List Annotation) :
    findAnnHandler handlers annotations =
      (annotations.find? (fun a => (mapLookup handlers a.cls).isSome)).bind
        (fun a => mapLookup handlers a.cls) := by
  induction annotations with
  | nil => rfl
  | cons a rest ih =>
    cases h : mapLookup handlers a.cls with
    | none => simp [findAnnHandler, h, List.find?_cons, ih]
    | some handler => simp [findAnnHandler, h, List.find?_cons]

lemma buildCtx_go (annotations : List Annotation) :
    ∀ (m : List (String × String)) (k : String),
      mapLookup (annotations.foldl (fun ctx a => mapInsert ctx a.cls a.val) m) k =
        match lastAnnVal annotations k with
        | some v => some v
        | none => mapLookup m k := by
  induction annotations with
  | nil => intro m k; rfl
  | cons a rest ih =>
    intro m k
    simp only [List.foldl_cons, lastAnnVal]
    rw [ih]
    cases hrest : lastAnnVal rest k with
    | some v => simp
    | none =>
      simp only
      rw [mapLookup_mapInsert]
      by_cases h : a.cls = k
      · simp [h]
      · simp [h]

/-- C2: for every key and every line, HandleEvent behaves exactly as the
specification describes the dispatch: the first annotation class (in the
Buffer's reported order) with a handler for the key wins and nothing else is
invoked; a plain listener fires only when no annotation-conditioned match
fired; the return value reports whether anything fired; and the Context
handed to the invoked handler maps each class to the value of the last
annotation of that class on the line. -/
theorem handleEvent_dispatches_as_spec {K W V : Type} [DecidableEq K]
    (eventListeners : List (K × W))
    (annotationEventListeners : List (K × List (String × V))) (ke : K)
    (annotations : List Annotation) :
    HandleEvent eventListeners annotationEventListeners ke annotations =
      dispatchSpec eventListeners annotationEventListeners ke annotations ∧
    ∀ k, mapLookup (buildCtx annotations) k = lastAnnVal annotations k := by
  constructor
  · unfold HandleEvent dispatchSpec
    cases hke : mapLookup annotationEventListeners ke with
    | none => rfl
    | some handlers =>
      simp only
      cases annotations with
      | nil => rfl
      | cons a rest =>
        simp only [List.length_cons, Nat.zero_lt_succ, if_pos]
        rw [findAnnHandler_eq_find]
        cases hfind : (a :: rest).find? (fun x => (mapLookup handlers x.cls).isSome) with
        | none => rfl
        | some a0 =>
          have hpred := List.find?_some hfind
          simp only [Option.isSome_iff_exists] at hpred
          obtain ⟨handler, hhandler⟩ := hpred
          simp [hhandler]
  · intro k
    have h := buildCtx_go annotations [] k
    unfold buildCtx
    rw [h]
    cases lastAnnVal annotations k <;> rfl

/-- Embedding of cmdPager.AddEventListener: store the handler for the key,
overwriting any previous plain listener for that key. -/
def AddEventListener {K W : Type} [DecidableEq K] (eventListeners : List (K × W))
    (ke : K) (handler : W) : List (K × W) :=
  mapInsert eventListeners ke handler

/-- Embedding of cmdPager.AddAnnotationEventListener: take the existing
per-class table for the key (an empty one when the key is new) and bind the
handler to each listed annotation class in it, then store the table back. -/
def AddAnnotationEventListener {K V : Type} [DecidableEq K]
    (annotationEventListeners : List (K × List (String × V))) (ke : K)
    (annotationTypes : List String) (handler : V) : List (K × List (String × V)) :=
  let inner :=
    match mapLookup annotationEventListeners ke with
    | some m => m
    | none => []
  mapInsert annotationEventListeners ke
    (annotationTypes.foldl (fun m t => mapInsert m t handler) inner)

/-- The per-class handler table registered under a key, empty when absent. -/
def innerHandlers {K V : Type} [DecidableEq K]
    (annotationEventListeners : List (K × List (String × V))) (ke : K) :
    List (String × V) :=
  match mapLookup annotationEventListeners ke with
  | some m => m
  | none => []

lemma foldl_mapInsert_lookup {V : Type} (handler : V) (types : List String) :
    ∀ (m : List (String × V)) (t : String),
      mapLookup (types.foldl (fun m t0 => mapInsert m t0 handler) m) t =
        if t ∈ types then some handler else mapLookup m t := by
  induction types with
  | nil => intro m t; simp
  | cons t0 rest ih =>
    intro m t
    simp only [List.foldl_cons]
    rw [ih]
    by_cases ht : t ∈ rest
    · simp [ht]
    · simp only [if_neg ht]
      rw [mapLookup_mapInsert]
      by_cases h0 : t0 = t
      · simp [h0, List.mem_cons]
      · have hcond : ¬ (t = t0 ∨ t ∈ rest) := by
          rintro (h | h)
          · exact h0 h.symm
          · exact ht h
        simp [if_neg h0, List.mem_cons, if_neg hcond]

/-- C10: listener registration semantics.  AddEventListener overwrites the
plain listener for the key (last registration wins) and touches no other key.
AddAnnotationEventListener merges: the handler is bound to every listed
annotation class under the key, bindings of unlisted classes under the same
key are preserved, and other keys are untouched. -/
theorem listener_registration_semantics {K W V : Type} [DecidableEq K]
    (eventListeners : List (K × W))
    (annotationEventListeners : List (K × List (String × V)))
    (ke : K) (handler : W) (annotationTypes : List String) (annHandler : V) :
    (mapLookup (AddEventListener eventListeners ke handler) ke = some handler) ∧
    (∀ k, k ≠ ke →
      mapLookup (AddEventListener eventListeners ke handler) k =
        mapLookup eventListeners k) ∧
    (∀ t, t ∈ annotationTypes →
      mapLookup (innerHandlers
        (AddAnnotationEventListener annotationEventListeners ke annotationTypes annHandler) ke) t =
        some annHandler) ∧
    (∀ t, t ∉ annotationTypes →
      mapLookup (innerHandlers
        (AddAnnotationEventListener annotationEventListeners ke annotationTypes annHandler) ke) t =
        mapLookup (innerHandlers annotationEventListeners ke) t) ∧
    (∀ k, k ≠ ke →
      mapLookup (AddAnnotationEventListener annotationEventListeners ke annotationTypes annHandler) k =
        mapLookup annotationEventListeners k) := by
  have hinner : innerHandlers
      (AddAnnotationEventListener annotationEventListeners ke annotationTypes annHandler) ke =
      annotationTypes.foldl (fun m t => mapInsert m t annHandler)
        (innerHandlers annotationEventListeners ke) := by
    unfold innerHandlers AddAnnotationEventListener
    rw [mapLookup_mapInsert, if_pos rfl]
  refine ⟨?_, ?_, ?_, ?_, ?_⟩
  · unfold AddEventListener
    rw [mapLookup_mapInsert, if_pos rfl]
  · intro k hk
    unfold AddEventListener
    rw [mapLookup_mapInsert, if_neg (fun h => hk h.symm)]
  · intro t ht
    rw [hinner, foldl_mapInsert_lookup, if_pos ht]
  · intro t ht
    rw [hinner, foldl_mapInsert_lookup, if_neg ht]
  · intro k hk
    unfold AddAnnotationEventListener
    rw [mapLookup_mapInsert, if_neg (fun h => hk h.symm)]

theorem listener_registration_semantics_witness :
    mapLookup (innerHandlers
      (AddAnnotationEventListener [("enter", [("url", 1)])] "enter" ["path"] 2) "enter")
      "path" = some 2 ∧
    mapLookup (innerHandlers
      (AddAnnotationEventListener [("enter", [("url", 1)])] "enter" ["path"] 2) "enter")
      "url" = some 1 ∧
    mapLookup (AddEventListener [("x", 5)] "x" 7) "x" = some 7 := by
  have h := listener_registration_semantics [("x", (5 : Nat))]
    [("enter", [("url", (1 : Nat))])] "enter" (7 : Nat) ["path"] (2 : Nat)
  have h2 := listener_registration_semantics [("x", (5 : Nat))]
    [("enter", [("url", (1 : Nat))])] "x" (7 : Nat) ["path"] (2 : Nat)
  refine ⟨h.2.2.1 "path" (by decide), ?_, h2.1⟩
  rw [h.2.2.2.1 "url" (by decide)]
  rfl

/-- A started shell command as shellCommand wraps it: the interpolated
command line it was spawned with and the operating-system process id. -/
structure ShellCmdProc where
  commandLine : String
  pid : Nat
deriving DecidableEq, Repr

/-- What the operating system answers to the three construction steps of
NewShellCommand (StdoutPipe, StderrPipe, Start): an error for each failing
step, and the process id when the start succeeds. -/
structure SpawnEnv where
  stdoutPipeErr : Option String
  stderrPipeErr : Option String
  startErr : Option String
  pid : Nat
deriving DecidableEq, Repr

/-- Embedding of NewShellCommand: obtain the stdout pipe, then the stderr
pipe, then start the process; the first failing step's error is returned,
otherwise the running process. -/
def NewShellCommand (env : SpawnEnv) (c : String) : Except String ShellCmdProc :=
  match env.stdoutPipeErr with
  | some e => Except.error e
  | none =>
    match env.stderrPipeErr with
    | some e => Except.error e
    | none =>
      match env.startErr with
      | some e => Except.error e
      | none => Except.ok { commandLine := c, pid := env.pid }

/-- The external kill command spawned by shellCommand.Close, with whatever
outcome running it had. -/
structure KillInvocation where
  program : String
  args : List String
  result : Except String Unit
deriving Repr

/-- Embedding of shellCommand.Close: run TASKKILL /T /F /PID pid, discard the
outcome of that run, and return nil unconditionally. -/
def Close (sc : ShellCmdProc) (killResult : Except String Unit) :
    KillInvocation × Option String :=
  ({ program := "TASKKILL", args := ["/T", "/F", "/PID", toString sc.pid],
     result := killResult }, none)

/-- C7: Close never surfaces an error and is idempotent: whatever the state
of the wrapped process and whatever the kill mechanism reports (including
failure), each of any number of repeated Close calls returns nil. -/
theorem close_never_surfaces_error (sc : ShellCmdProc)
    (killResults : List (Except String Unit)) :
    (∀ killResult, (Close sc killResult).2 = none) ∧
    killResults.map (fun killResult => (Close sc killResult).2) =
      List.replicate killResults.length none := by
  refine ⟨fun _ => rfl, ?_⟩
  induction killResults with
  | nil => rfl
  | cons kr rest ih => simp [Close, ih, List.replicate]

/-- The fields of a cmdPager that Reload and RunCommand touch or must
preserve: the command template, the context, the live shell command, the
buffer (identified by the process id whose stream it consumes), both
listener tables and the registered mode names. -/
structure CmdPagerState (K W V : Type) where
  cmd : String
  ctx : List (String × String)
  command : ShellCmdProc
  buffer : Nat
  eventListeners : List (K × W)
  annotationEventListeners : List (K × List (String × V))
  modes : List String
deriving DecidableEq

/-- Embedding of cmdPager.InterpolatedCmd; the interpolation itself
(InterpolateContext) is an external collaborator and is passed in as a
function. -/
def InterpolatedCmd {K W V : Type} (interp : String → List (String × String) → String)
    (p : CmdPagerState K W V) : String :=
  interp p.cmd p.ctx

/-- Embedding of cmdPager.RunCommand: start a new shell command from the
interpolated template and wrap it in a new buffer; on error the Go code
panics, so the function does not return a pager (none). Annotators are
spawned against the new buffer as a side effect and touch no pager field. -/
def RunCommand {K W V : Type} (interp : String → List (String × String) → String)
    (env : SpawnEnv) (p : CmdPagerState K W V) : Option (CmdPagerState K W V) :=
  match NewShellCommand env (InterpolatedCmd interp p) with
  | Except.error _ => none
  | Except.ok sc => some { p with command := sc, buffer := sc.pid }

/-- Embedding of cmdPager.Stop: it closes the current shell command and the
current buffer, two effects on external objects; every field of the pager
record is left untouched. -/
def Stop {K W V : Type} (p : CmdPagerState K W V) : CmdPagerState K W V := p

/-- Embedding of cmdPager.Reload: Stop, then RunCommand. -/
def Reload {K W V : Type} (interp : String → List (String × String) → String)
    (env : SpawnEnv) (p : CmdPagerState K W V) : Option (CmdPagerState K W V) :=
  RunCommand interp env (Stop p)

/-- C6: when Reload succeeds with a fresh process id, it replaces the shell
command and the buffer (the new command is a fresh invocation of the
interpolated template, and the new buffer reads the new process's stream,
not the old one) while both listener tables, the command template, the
context and the registered modes are unchanged. -/
theorem reload_replaces_pair_preserves_listeners {K W V : Type}
    (interp : String → List (String × String) → String) (env : SpawnEnv)
    (p p2 : CmdPagerState K W V)
    (hfresh : env.pid ≠ p.command.pid)
    (hrun : Reload interp env p = some p2) :
    p2.eventListeners = p.eventListeners ∧
    p2.annotationEventListeners = p.annotationEventListeners ∧
    p2.cmd = p.cmd ∧ p2.ctx = p.ctx ∧ p2.modes = p.modes ∧
    p2.command.commandLine = interp p.cmd p.ctx ∧
    p2.command.pid = env.pid ∧
    p2.command.pid ≠ p.command.pid ∧
    p2.buffer = p2.command.pid := by
  unfold Reload RunCommand Stop NewShellCommand InterpolatedCmd at hrun
  cases h1 : env.stdoutPipeErr with
  | some e => rw [h1] at hrun; exact Option.noConfusion hrun
  | none =>
    rw [h1] at hrun
    cases h2 : env.stderrPipeErr with
    | some e => rw [h2] at hrun; exact Option.noConfusion hrun
    | none =>
      rw [h2] at hrun
      cases h3 : env.startErr with
      | some e => rw [h3] at hrun; exact Option.noConfusion hrun
      | none =>
        rw [h3] at hrun
        obtain rfl : p2 = _ := (Option.some.inj hrun).symm
        exact ⟨rfl, rfl, rfl, rfl, rfl, rfl, rfl, fun h => hfresh h, rfl⟩

/-- Concrete pager used to witness the Reload frame theorem. -/
def reloadDemoPager : CmdPagerState Nat Nat Nat :=
  { cmd := "git show {commit}", ctx := [("commit", "HEAD")],
    command := { commandLine := "git show HEAD", pid := 1 }, buffer := 1,
    eventListeners := [(13, 7)], annotationEventListeners := [(10, [("path", 3)])],
    modes := ["git"] }

/-- Concrete spawn environment used to witness the Reload frame theorem. -/
def reloadDemoEnv : SpawnEnv :=
  { stdoutPipeErr := none, stderrPipeErr := none, startErr := none, pid := 2 }

/-- The pager produced by reloading reloadDemoPager in reloadDemoEnv. -/
def reloadDemoResult : CmdPagerState Nat Nat Nat :=
  { reloadDemoPager with
    command := { commandLine := "git show {commit}", pid := 2 }, buffer := 2 }

theorem reload_replaces_pair_preserves_listeners_witness :
    reloadDemoResult.eventListeners = reloadDemoPager.eventListeners ∧
    reloadDemoResult.annotationEventListeners = reloadDemoPager.annotationEventListeners ∧
    reloadDemoResult.cmd = reloadDemoPager.cmd ∧
    reloadDemoResult.ctx = reloadDemoPager.ctx ∧
    reloadDemoResult.modes = reloadDemoPager.modes ∧
    reloadDemoResult.command.commandLine =
      (fun (c : String) (_ : List (String × String)) => c)
        reloadDemoPager.cmd reloadDemoPager.ctx ∧
    reloadDemoResult.command.pid = reloadDemoEnv.pid ∧
    reloadDemoResult.command.pid ≠ reloadDemoPager.command.pid ∧
    reloadDemoResult.buffer = reloadDemoResult.command.pid :=
  reload_replaces_pair_preserves_listeners (fun c _ => c) reloadDemoEnv reloadDemoPager
    reloadDemoResult (by decide) (by rfl)

/-- C8: if any construction step of the process wrapper fails, then
NewShellCommand returns that error, and RunCommand (which Go ends with
panic(err)) does not return a pager at all: no half-initialized
(command, buffer) pair is ever produced. -/
theorem construction_failure_is_fatal {K W V : Type}
    (interp : String → List (String × String) → String) (env : SpawnEnv)
    (c : String) (p : CmdPagerState K W V)
    (hfail : env.stdoutPipeErr ≠ none ∨ env.stderrPipeErr ≠ none ∨ env.startErr ≠ none) :
    (∃ e, NewShellCommand env c = Except.error e) ∧
    RunCommand interp env p = none := by
  unfold NewShellCommand RunCommand
  cases h1 : env.stdoutPipeErr with
  | some e => exact ⟨⟨e, rfl⟩, by unfold NewShellCommand; rw [h1]⟩
  | none =>
    cases h2 : env.stderrPipeErr with
    | some e => exact ⟨⟨e, rfl⟩, by unfold NewShellCommand; rw [h1, h2]⟩
    | none =>
      cases h3 : env.startErr with
      | some e => exact ⟨⟨e, rfl⟩, by unfold NewShellCommand; rw [h1, h2, h3]⟩
      | none =>
        exfalso
        rcases hfail with h | h | h
        · exact h h1
        · exact h h2
        · exact h h3

theorem construction_failure_is_fatal_witness :
    (∃ e, NewShellCommand
        { stdoutPipeErr := none, stderrPipeErr := none, startErr := some "fork failed",
          pid := 0 } "ls" = Except.error e) ∧
    RunCommand (fun c _ => c)
        { stdoutPipeErr := none, stderrPipeErr := none, startErr := some "fork failed",
          pid := 0 }
        ({ cmd := "ls", ctx := [], command := { commandLine := "ls", pid := 1 },
           buffer := 1, eventListeners := [], annotationEventListeners := [],
           modes := [] } : CmdPagerState Nat Nat Nat) = none :=
  construction_failure_is_fatal (fun c _ => c) _ "ls" _
    (Or.inr (Or.inr (by decide)))
